import Mathlib

/-!
Shallow embedding of the reimbursement calculation in
src/travel_form_generate.py, together with theorems checking the
specification's claims about it.  Monetary amounts are modelled as
rationals; Python round(x, n) (round-half-to-even) is modelled exactly.
-/

set_option maxRecDepth 10000

namespace TravelForm

/-- Python round(x) to an integer: round half to even (banker's rounding). -/
def pyRoundHalfEven (q : ℚ) : ℤ :=
  let f : ℤ := ⌊q⌋
  let r : ℚ := q - f
  if r < 1/2 then f
  else if 1/2 < r then f + 1
  else if f % 2 = 0 then f else f + 1

/-- Python round(x, 2): round to 2 decimal places, half to even. -/
def round2 (q : ℚ) : ℚ := (pyRoundHalfEven (q * 100) : ℚ) / 100

/-- Python round(x, 0): round to 0 decimal places, half to even. -/
def round0 (q : ℚ) : ℚ := (pyRoundHalfEven q : ℚ)

/-- One row of the meal_deductions table (travel_form_generate.py lines
289-295 and 1243-1249): per-meal deduction amounts, the incidental
allowance and the precomputed first/last-day rate. -/
structure MealRow where
  breakfast : ℚ
  lunch : ℚ
  dinner : ℚ
  incidental : ℚ
  firstLast : ℚ
deriving DecidableEq

/-- The meal_deductions dict: tier -> deduction row, defined for the five
recognized tiers only. -/
def meal_deductions (t : ℤ) : Option MealRow :=
  if t = 68 then some ⟨16, 19, 28, 5, 51⟩
  else if t = 74 then some ⟨18, 20, 31, 5, 111/2⟩
  else if t = 80 then some ⟨20, 22, 33, 5, 60⟩
  else if t = 86 then some ⟨22, 23, 36, 5, 129/2⟩
  else if t = 92 then some ⟨23, 26, 38, 5, 69⟩
  else none

/-- meal_deductions.get(base, meal_deductions[80]): tier-80 row is the
fallback for unrecognized tiers. -/
def deductsFor (t : ℤ) : MealRow :=
  (meal_deductions t).getD ⟨20, 22, 33, 5, 60⟩

/-- Python truthiness test of a per-diem date entry:
d and str(d).strip() is truthy iff the stripped string is non-empty. -/
def isActiveDate (d : String) : Bool := d.trim ≠ ""

/-- days_with_dates = [i for i, d in enumerate(per_diem_dates) if d and str(d).strip()] -/
def days_with_dates (dates : List String) : List ℕ :=
  (List.range dates.length).filter (fun i => isActiveDate (dates.getD i ""))

/-- first_day_idx = days_with_dates[0] if days_with_dates else 0 -/
def first_day_idx (dates : List String) : ℕ := (days_with_dates dates).headD 0

/-- last_day_idx = days_with_dates[-1] if days_with_dates else 0 -/
def last_day_idx (dates : List String) : ℕ := (days_with_dates dates).getLastD 0

/-- base_per_diem = int(per_diem_amounts[i]) if (i < len(per_diem_amounts)
and per_diem_amounts[i]) else 80.  A missing index or a falsy (zero) entry
falls back to 80. -/
def basePerDiem (amounts : List ℤ) (i : ℕ) : ℤ :=
  match amounts.get? i with
  | some t => if t ≠ 0 then t else 80
  | none => 80

/-- The guarded check-list access: i < len(checks) and checks[i]. -/
def getCheck (l : List Bool) (i : ℕ) : Bool := l.getD i false

/-- deduction_total accumulated from the three guarded meal-flag branches. -/
def dayDeduction (row : MealRow) (b l d : Bool) : ℚ :=
  (if b then row.breakfast else 0) + (if l then row.lunch else 0) +
    (if d then row.dinner else 0)

/-- The deduction computed for day i of the loop: flags and tier are read
from the per-day lists with the code's bounds guards. -/
def dayDeductionAt (amounts : List ℤ) (b l d : List Bool) (i : ℕ) : ℚ :=
  dayDeduction (deductsFor (basePerDiem amounts i)) (getCheck b i)
    (getCheck l i) (getCheck d i)

/-- pre75_total = max(0.0, float(base_per_diem) - deduction_total) for day i. -/
def dayPre (amounts : List ℤ) (b l d : List Bool) (i : ℕ) : ℚ :=
  max 0 ((basePerDiem amounts i : ℚ) - dayDeductionAt amounts b l d i)

/-- The body of the per-diem loop in main (lines 1251-1272): the adjusted
per-diem value contributed by day i. -/
def adjustedDay (dates : List String) (amounts : List ℤ) (b l d : List Bool)
    (i : ℕ) : ℚ :=
  if isActiveDate (dates.getD i "") then
    let pre := dayPre amounts b l d i
    if i = first_day_idx dates ∨ i = last_day_idx dates then
      round2 (pre * (3/4))
    else
      round2 pre
  else 0

/-- adjusted_per_diem_daily built by main's loop over range(len(per_diem_dates)). -/
def adjusted_per_diem_daily (dates : List String) (amounts : List ℤ)
    (b l d : List Bool) : List ℚ :=
  (List.range dates.length).map (adjustedDay dates amounts b l d)

/-- total_per_diem = sum(adjusted_per_diem_daily) (line 1274). -/
def total_per_diem (dates : List String) (amounts : List ℤ)
    (b l d : List Bool) : ℚ :=
  (adjusted_per_diem_daily dates amounts b l d).sum

/-! ### The duplicated per-diem loop inside create_pdf (lines 643-677) -/

/-- The body of the per-diem loop in create_pdf (lines 652-675); the same
value is appended to both adjusted_per_diem and daily_totals. -/
def cp_adjustedDay (dates : List String) (amounts : List ℤ) (b l d : List Bool)
    (i : ℕ) : ℚ :=
  if isActiveDate (dates.getD i "") then
    let base := basePerDiem amounts i
    let row := deductsFor base
    let ded := (if getCheck b i then row.breakfast else 0) +
      (if getCheck l i then row.lunch else 0) +
      (if getCheck d i then row.dinner else 0)
    let pre := max 0 ((base : ℚ) - ded)
    if i = first_day_idx dates ∨ i = last_day_idx dates then
      round2 (pre * (3/4))
    else
      round2 pre
  else 0

/-- create_pdf's adjusted_per_diem list (lines 643-675). -/
def cp_adjusted_per_diem (dates : List String) (amounts : List ℤ)
    (b l d : List Bool) : List ℚ :=
  (List.range dates.length).map (cp_adjustedDay dates amounts b l d)

/-- create_pdf's daily_totals list: the same per-day values (lines 644-675). -/
def cp_daily_totals (dates : List String) (amounts : List ℤ)
    (b l d : List Bool) : List ℚ :=
  (List.range dates.length).map (cp_adjustedDay dates amounts b l d)

/-- total_per_diem_calculated = sum(daily_totals) (line 677). -/
def cp_total_per_diem (dates : List String) (amounts : List ℤ)
    (b l d : List Bool) : ℚ :=
  (cp_daily_totals dates amounts b l d).sum

/-! ### Mileage and category totals -/

/-- total_mileage = round(sum([m * 0.70 for m in mileage_amounts if m]), 0)
(line 1089): one rounding, applied to the sum. -/
def total_mileage (ms : List ℚ) : ℚ :=
  round0 (((ms.filter (fun m => decide (m ≠ 0))).map (fun m => m * (7/10))).sum)

/-- create_pdf's grand_mileage_rate_total (lines 447-454): rounds each
day's miles * 0.70 to whole dollars, sums, then rounds the (already whole)
sum again. -/
def grand_mileage_rate_total (ms : List ℚ) : ℚ :=
  round0 (((ms.filter (fun m => decide (m ≠ 0))).map
    (fun m => round0 (m * (7/10)))).sum)

/-- Every non-mileage expense category total is a plain sum of its per-day
values (lines 1231-1235). -/
def category_total (xs : List ℚ) : ℚ := xs.sum

/-- total_misc = sum(misc) + sum(misc2) (line 1236). -/
def total_misc_combined (m1 m2 : List ℚ) : ℚ := m1.sum + m2.sum

/-- create_pdf lines 794-799: subtotal = sum of the eight category totals,
then total_amount_due = max(0, subtotal). -/
def total_amount_due_pdf (mil air gro par lod bag mis pd : ℚ) : ℚ :=
  max 0 (mil + air + gro + par + lod + bag + mis + pd)

/-- main lines 1275-1277: total_amount_due = plain sum of the eight
category totals (no flooring on this path). -/
def total_amount_due_main (mil air gro par lod bag mis pd : ℚ) : ℚ :=
  mil + air + gro + par + lod + bag + mis + pd

/-! ### Spec-side formulation of the per-day per-diem rule (for C1) -/

/-- The spec's active day set: the days whose date entry is non-empty. -/
def specActiveSet (dates : List String) : List ℕ :=
  (List.range dates.length).filter (fun i => decide ((dates.getD i "").trim ≠ ""))

/-- The per-day adjusted per diem as the specification words it: an empty
date contributes 0; otherwise pre-adjustment = max(0, base - deduction),
multiplied by 0.75 and rounded to 2 decimals when the day is the first or
last element of the active day set, rounded to 2 decimals directly
otherwise. -/
def specAdjustedDay (dates : List String) (amounts : List ℤ) (b l d : List Bool)
    (i : ℕ) : ℚ :=
  if (dates.getD i "").trim = "" then 0
  else
    let pre := max 0 ((basePerDiem amounts i : ℚ) - dayDeductionAt amounts b l d i)
    if some i = (specActiveSet dates).head? ∨ some i = (specActiveSet dates).getLast? then
      round2 (pre * (3/4))
    else
      round2 pre

/-! ### A checked evaluator: list accesses raise, guards prevent it (for C3) -/

/-- List indexing as Python performs it: out of range raises. -/
def listGetE {α : Type} (l : List α) (i : ℕ) : Except String α :=
  match l.get? i with
  | some a => Except.ok a
  | none => Except.error "list index out of range"

/-- The per-diem loop body with every list access modelled as a raising
operation, guarded exactly as the source guards it (lines 1251-1272). -/
def checkedAdjustedDay (dates : List String) (amounts : List ℤ)
    (b l d : List Bool) (i : ℕ) : Except String ℚ :=
  if i < dates.length then
    (listGetE dates i).bind fun dt =>
      if isActiveDate dt then
        (if i < amounts.length then
            (listGetE amounts i).map (fun a => if a ≠ 0 then a else 80)
          else Except.ok 80).bind fun base =>
        ((if i < b.length then listGetE b i else Except.ok false)).bind fun db =>
        ((if i < l.length then listGetE l i else Except.ok false)).bind fun dl =>
        ((if i < d.length then listGetE d i else Except.ok false)).bind fun dd =>
          let row := deductsFor base
          let ded := (if db then row.breakfast else 0) +
            (if dl then row.lunch else 0) + (if dd then row.dinner else 0)
          let pre := max 0 ((base : ℚ) - ded)
          if i = first_day_idx dates ∨ i = last_day_idx dates then
            Except.ok (round2 (pre * (3/4)))
          else
            Except.ok (round2 pre)
      else Except.ok 0
  else Except.ok 0

/-- The whole checked loop over range(len(per_diem_dates)). -/
def checked_adjusted_per_diem (dates : List String) (amounts : List ℤ)
    (b l d : List Bool) : Except String (List ℚ) :=
  (List.range dates.length).mapM (checkedAdjustedDay dates amounts b l d)

/-! ### The numeric text-field parser number_text_input (lines 40-86) -/

/-- A Python float value: finite (idealized as a rational), an infinity,
or NaN. -/
inductive PVal where
  | fin : ℚ → PVal
  | inf : PVal
  | ninf : PVal
  | nan : PVal
deriving DecidableEq

/-- text_val.strip().replace('$', '').replace(',', '').replace(' ', '') -/
def cleanText (s : String) : String :=
  String.mk ((s.trim.toList).filter
    (fun c => (c != '$') && (c != ',') && (c != ' ')))

/-- Remove one optional leading sign; returns (isNegative, rest). -/
def splitSign : List Char → Bool × List Char
  | '+' :: r => (false, r)
  | '-' :: r => (true, r)
  | cs => (false, cs)

/-- A digit run, after its first digit: digits with single underscores
allowed only between digits (Python numeric-literal underscore rule). -/
def digitRunAux : List Char → Bool
  | [] => true
  | ['_'] => false
  | '_' :: c :: rest => c.isDigit && digitRunAux rest
  | c :: rest => c.isDigit && digitRunAux rest

/-- A non-empty digit run with legal underscores. -/
def digitRun : List Char → Bool
  | [] => false
  | c :: rest => c.isDigit && digitRunAux rest

/-- The natural number denoted by the digits of a run (underscores skipped). -/
def digitsVal (cs : List Char) : ℕ :=
  (cs.filter Char.isDigit).foldl (fun a c => a * 10 + (c.toNat - 48)) 0

/-- The number of digits of a run (underscores skipped). -/
def digitsLen (cs : List Char) : ℕ := (cs.filter Char.isDigit).length

/-- The mantissa of a Python float literal: digits, digits '.' digits,
digits '.', or '.' digits. -/
def parseMantissa (cs : List Char) : Option ℚ :=
  match cs.splitOn '.' with
  | [ip] => if digitRun ip then some ((digitsVal ip : ℚ)) else none
  | [ip, fp] =>
    if (decide (ip ≠ []) || decide (fp ≠ [])) &&
        (decide (ip = []) || digitRun ip) && (decide (fp = []) || digitRun fp) then
      some ((digitsVal ip : ℚ) + (digitsVal fp : ℚ) / (10 : ℚ) ^ digitsLen fp)
    else none
  | _ => none

/-- Python float(s) on a cleaned string: strips surrounding whitespace,
accepts an optional sign, the keywords inf, infinity and nan
(case-insensitive), or a decimal literal with an optional exponent. -/
def pyFloatOfString (s : String) : Option PVal :=
  let sg := splitSign (s.trim.toLower).toList
  let neg := sg.1
  let body := sg.2
  if body = ['i', 'n', 'f'] ∨ body = ['i', 'n', 'f', 'i', 'n', 'i', 't', 'y'] then
    some (if neg then PVal.ninf else PVal.inf)
  else if body = ['n', 'a', 'n'] then
    some PVal.nan
  else
    match body.splitOn 'e' with
    | [m] => (parseMantissa m).map fun q => PVal.fin (if neg then -q else q)
    | [m, ex] =>
      (parseMantissa m).bind fun q =>
        let es := splitSign ex
        if digitRun es.2 then
          let e : ℤ := if es.1 then -(digitsVal es.2 : ℤ) else (digitsVal es.2 : ℤ)
          some (PVal.fin ((if neg then -q else q) * (10 : ℚ) ^ e))
        else none
    | _ => none

/-- Python's num_val < min_value comparison, where min_value is finite:
NaN compares false, -inf compares true, +inf compares false. -/
def pvLt (a : PVal) (m : ℚ) : Bool :=
  match a with
  | .fin x => decide (x < m)
  | .inf => false
  | .ninf => true
  | .nan => false

/-- number_text_input (lines 40-86) as a value-level function of the typed
text: empty or whitespace-only text returns 0.0; otherwise the cleaned
text is given to float(); a parse failure returns 0.0 on both the
regex-error and the fall-through paths; a parsed value below min_value is
replaced by min_value. -/
def number_text_input (text : String) (min_value : ℚ) : PVal :=
  if text.trim = "" then PVal.fin 0
  else
    match pyFloatOfString (cleanText text) with
    | some v => if pvLt v min_value then PVal.fin min_value else v
    | none => PVal.fin 0

/-! ## Helper lemmas -/

theorem pyRound_intCast (k : ℤ) : pyRoundHalfEven (k : ℚ) = k := by
  unfold pyRoundHalfEven
  rw [Int.floor_intCast]
  simp only [sub_self]
  norm_num

theorem round0_intCast (k : ℤ) : round0 (k : ℚ) = (k : ℚ) := by
  rw [round0, pyRound_intCast]

theorem filtered_rate_sum (ms : List ℚ) :
    ((ms.filter (fun m => decide (m ≠ 0))).map (fun m => m * (7/10))).sum
      = (ms.map (fun m => m * (7/10))).sum := by
  induction ms with
  | nil => rfl
  | cons x xs ih =>
    rw [List.filter_cons]
    by_cases hx : x = 0
    · rw [if_neg (by simp [hx] : ¬(decide (x ≠ 0) = true)), ih,
        List.map_cons, List.sum_cons, hx, zero_mul, zero_add]
    · rw [if_pos (by simp [hx] : decide (x ≠ 0) = true),
        List.map_cons, List.sum_cons, List.map_cons, List.sum_cons, ih]

theorem adjusted_getD (dates : List String) (amounts : List ℤ)
    (b l d : List Bool) (i : ℕ) (hi : i < dates.length) :
    (adjusted_per_diem_daily dates amounts b l d).getD i 0
      = adjustedDay dates amounts b l d i := by
  unfold adjusted_per_diem_daily
  rw [List.getD_eq_getElem?_getD, List.getElem?_map, List.getElem?_range hi]
  rfl

theorem mem_days_with_dates (dates : List String) (i : ℕ) :
    i ∈ days_with_dates dates
      ↔ i < dates.length ∧ isActiveDate (dates.getD i "") = true := by
  simp [days_with_dates, List.mem_filter, List.mem_range]

theorem headD_eq_iff (L : List ℕ) (h : L ≠ []) (x : ℕ) :
    x = L.headD 0 ↔ some x = L.head? := by
  cases L with
  | nil => exact absurd rfl h
  | cons a as => simp [List.headD, List.head?, eq_comm]

theorem getLastD_eq_iff (L : List ℕ) (h : L ≠ []) (x : ℕ) :
    x = L.getLastD 0 ↔ some x = L.getLast? := by
  rw [List.getLastD_eq_getLast?]
  cases hL : L.getLast? with
  | none => exact absurd (List.getLast?_eq_none_iff.1 hL) h
  | some a => simp [eq_comm]

theorem mapM_ok_of_forall {α β : Type} (L : List α) (f : α → Except String β)
    (g : α → β) (h : ∀ a ∈ L, f a = Except.ok (g a)) :
    L.mapM f = Except.ok (L.map g) := by
  induction L with
  | nil => rfl
  | cons x xs ih =>
    rw [List.map_cons, List.mapM_cons, h x (List.mem_cons_self x xs),
      ih (fun a ha => h a (List.mem_cons_of_mem x ha))]
    rfl

/-! ## Claim theorems -/

/-- C9: the adjusted per-diem sequence and the per-diem total computed by
create_pdf (lines 643-677) coincide with those computed by the
form-submission path in main (lines 1250-1274). -/
theorem c9_create_pdf_matches_main (dates : List String) (amounts : List ℤ)
    (b l d : List Bool) :
    cp_adjusted_per_diem dates amounts b l d
        = adjusted_per_diem_daily dates amounts b l d
      ∧ cp_total_per_diem dates amounts b l d
        = total_per_diem dates amounts b l d := by
  constructor <;> rfl

/-- C7: the submission-path mileage total is the sum of miles * 0.70 over
all days, rounded once to whole dollars; every other category total is the
unrounded sum of its per-day values. -/
theorem c7_mileage_rounded_once (ms airfare m1 m2 : List ℚ) :
    total_mileage ms = round0 ((ms.map (fun m => m * (7/10))).sum)
      ∧ category_total airfare = airfare.sum
      ∧ total_misc_combined m1 m2 = m1.sum + m2.sum := by
  refine ⟨?_, rfl, rfl⟩
  rw [total_mileage, filtered_rate_sum]

/-- C8 counterexample: with per-day mileage [0.5, 0.5], the PDF display
path (round each day, then sum) yields 0 while the submission path (sum,
then round once) yields 1, so the two mileage totals differ. -/
theorem c8_counterexample :
    grand_mileage_rate_total [1/2, 1/2] = 0
      ∧ total_mileage [1/2, 1/2] = 1
      ∧ grand_mileage_rate_total [1/2, 1/2] ≠ total_mileage [1/2, 1/2] := by
  refine ⟨?_, ?_, ?_⟩ <;> with_unfolding_all decide

/-- C8 amended: the two mileage-total code paths agree whenever each
day's miles * 0.70 is a whole-dollar amount; in general the display path
rounds per day before summing and can differ from the submission path,
which rounds the sum once. -/
theorem c8_amended (ms : List ℚ)
    (h : ∀ m ∈ ms, ∃ k : ℤ, m * (7/10) = (k : ℚ)) :
    grand_mileage_rate_total ms = total_mileage ms := by
  unfold grand_mileage_rate_total total_mileage
  have hmap : (ms.filter (fun m => decide (m ≠ 0))).map
      (fun m => round0 (m * (7/10)))
        = (ms.filter (fun m => decide (m ≠ 0))).map (fun m => m * (7/10)) := by
    refine List.map_congr_left (fun m hm => ?_)
    obtain ⟨k, hk⟩ := h m (List.mem_of_mem_filter hm)
    rw [hk, round0_intCast]
  rw [hmap]

/-- C8 amended, witness: a concrete one-day input with whole-dollar
mileage on which the theorem applies. -/
theorem c8_amended_witness :
    (∀ m ∈ ([10] : List ℚ), ∃ k : ℤ, m * (7/10) = (k : ℚ))
      ∧ grand_mileage_rate_total [10] = total_mileage [10] := by
  have h10 : ∀ m ∈ ([10] : List ℚ), ∃ k : ℤ, m * (7/10) = (k : ℚ) := by
    intro m hm
    rw [List.mem_singleton] at hm
    exact ⟨7, by rw [hm]; norm_num⟩
  exact ⟨h10, c8_amended [10] h10⟩

/-- C4: the Total Amount Due printed by create_pdf is the sum of the eight
category totals floored at 0, hence never negative, and is 0 on all-zero
inputs; on nonnegative category totals (as the submission path produces)
main's unfloored sum agrees with it. -/
theorem c4_grand_total (mil air gro par lod bag mis pd : ℚ) :
    total_amount_due_pdf mil air gro par lod bag mis pd
        = max 0 (mil + air + gro + par + lod + bag + mis + pd)
      ∧ 0 ≤ total_amount_due_pdf mil air gro par lod bag mis pd
      ∧ (0 ≤ mil → 0 ≤ air → 0 ≤ gro → 0 ≤ par → 0 ≤ lod → 0 ≤ bag →
          0 ≤ mis → 0 ≤ pd →
          total_amount_due_main mil air gro par lod bag mis pd
            = total_amount_due_pdf mil air gro par lod bag mis pd)
      ∧ total_amount_due_pdf 0 0 0 0 0 0 0 0 = 0
      ∧ total_amount_due_main 0 0 0 0 0 0 0 0 = 0 := by
  refine ⟨rfl, le_max_left _ _, ?_, by norm_num [total_amount_due_pdf],
    by norm_num [total_amount_due_main]⟩
  intro h1 h2 h3 h4 h5 h6 h7 h8
  rw [total_amount_due_main, total_amount_due_pdf,
    max_eq_right (by positivity)]

/-- C4 witness: the theorem applied at the all-zero input. -/
theorem c4_witness :
    total_amount_due_main 0 0 0 0 0 0 0 0
      = total_amount_due_pdf 0 0 0 0 0 0 0 0 :=
  (c4_grand_total 0 0 0 0 0 0 0 0).2.2.1 le_rfl le_rfl le_rfl le_rfl le_rfl
    le_rfl le_rfl le_rfl

/-- C2 counterexample: with unrecognized tier 100 on a single active day,
the code yields round(100 * 0.75, 2) = 75, not the 60 that a full
fall-back to tier 80 would give: only the deduction row falls back. -/
theorem c2_counterexample :
    adjusted_per_diem_daily ["x"] [100] [] [] [] = [75]
      ∧ adjusted_per_diem_daily ["x"] [80] [] [] [] = [60]
      ∧ adjusted_per_diem_daily ["x"] [100] [] [] []
          ≠ adjusted_per_diem_daily ["x"] [80] [] [] [] := by
  refine ⟨?_, ?_, ?_⟩ <;> with_unfolding_all decide

/-- C2 amended: for a day whose selected tier is not one of the five
recognized values (and is nonzero, hence truthy), only the meal-deduction
amounts fall back to the tier-80 row; the base rate keeps the selected
tier value. -/
theorem c2_amended (amounts : List ℤ) (b l d : List Bool) (i : ℕ) (t : ℤ)
    (hget : amounts.get? i = some t)
    (hmem : t ∉ ([68, 74, 80, 86, 92] : List ℤ)) (ht0 : t ≠ 0) :
    basePerDiem amounts i = t
      ∧ deductsFor t = ⟨20, 22, 33, 5, 60⟩
      ∧ dayPre amounts b l d i
          = max 0 ((t : ℚ) - dayDeduction ⟨20, 22, 33, 5, 60⟩
              (getCheck b i) (getCheck l i) (getCheck d i)) := by
  simp only [List.mem_cons, List.not_mem_nil, or_false, not_or] at hmem
  obtain ⟨h68, h74, h80, h86, h92⟩ := hmem
  have hbase : basePerDiem amounts i = t := by
    rw [basePerDiem, hget]
    simp [ht0]
  have hrow : deductsFor t = ⟨20, 22, 33, 5, 60⟩ := by
    rw [deductsFor, meal_deductions]
    simp [h68, h74, h80, h86, h92]
  refine ⟨hbase, hrow, ?_⟩
  rw [dayPre, dayDeductionAt, hbase, hrow]

/-- C2 amended, witness: tier 100 on day 0. -/
theorem c2_amended_witness :
    basePerDiem [(100 : ℤ)] 0 = 100
      ∧ deductsFor 100 = ⟨20, 22, 33, 5, 60⟩ := by
  have h := c2_amended [(100 : ℤ)] [] [] [] 0 100 rfl (by decide) (by decide)
  exact ⟨h.1, h.2.1⟩

/-- The two per-day active-set computations coincide definitionally. -/
theorem specActiveSet_eq_days (dates : List String) :
    specActiveSet dates = days_with_dates dates := rfl

theorem isActiveDate_true {s : String} (h : s.trim ≠ "") :
    isActiveDate s = true := decide_eq_true h

theorem isActiveDate_false {s : String} (h : s.trim = "") :
    isActiveDate s = false := decide_eq_false (fun hn => hn h)

/-- C1: for every day index inside the grid, the code's adjusted per-diem
value matches the spec's formula: 0 for an empty date (such a day is not
in the active day set), and otherwise round2 of the nonnegative
pre-adjustment total, times 0.75 exactly when the day is the first or last
element of the active day set. -/
theorem c1_adjusted_day (dates : List String) (amounts : List ℤ)
    (b l d : List Bool) (i : ℕ) (hi : i < dates.length) :
    (adjusted_per_diem_daily dates amounts b l d).getD i 0
        = specAdjustedDay dates amounts b l d i
      ∧ 0 ≤ dayPre amounts b l d i
      ∧ ((dates.getD i "").trim = "" →
          (adjusted_per_diem_daily dates amounts b l d).getD i 0 = 0
            ∧ i ∉ days_with_dates dates) := by
  refine ⟨?_, le_max_left _ _, ?_⟩
  · rw [adjusted_getD dates amounts b l d i hi]
    by_cases hact : (dates.getD i "").trim = ""
    · rw [adjustedDay, specAdjustedDay, if_pos hact,
        if_neg (by rw [isActiveDate_false hact]; exact Bool.false_ne_true)]
    · have hActB : isActiveDate (dates.getD i "") = true := isActiveDate_true hact
      have hmem : i ∈ days_with_dates dates :=
        (mem_days_with_dates dates i).2 ⟨hi, hActB⟩
      have hne : days_with_dates dates ≠ [] := List.ne_nil_of_mem hmem
      rw [adjustedDay, specAdjustedDay, if_pos hActB, if_neg hact,
        specActiveSet_eq_days]
      have hcond : (i = first_day_idx dates ∨ i = last_day_idx dates)
          ↔ (some i = (days_with_dates dates).head?
              ∨ some i = (days_with_dates dates).getLast?) :=
        or_congr (headD_eq_iff _ hne i) (getLastD_eq_iff _ hne i)
      rw [if_congr hcond rfl rfl]
      rfl
  · intro hemp
    constructor
    · rw [adjusted_getD dates amounts b l d i hi, adjustedDay,
        if_neg (by rw [isActiveDate_false hemp]; exact Bool.false_ne_true)]
    · rw [mem_days_with_dates]
      rintro ⟨-, hab⟩
      rw [isActiveDate_false hemp] at hab
      exact Bool.false_ne_true hab

/-- C1 witness: a 3-day trip at tier 68 with no meals flagged; the interior
day keeps the full rate 68. -/
theorem c1_witness :
    (adjusted_per_diem_daily ["a", "b", "c"] [68, 68, 68] [] [] []).getD 1 0 = 68
      ∧ specAdjustedDay ["a", "b", "c"] [68, 68, 68] [] [] [] 1 = 68 := by
  have h := c1_adjusted_day ["a", "b", "c"] [68, 68, 68] [] [] [] 1 (by decide)
  have hv : (adjusted_per_diem_daily ["a", "b", "c"] [68, 68, 68] [] [] []).getD 1 0
      = 68 := by with_unfolding_all decide
  exact ⟨hv, h.1 ▸ hv⟩

/-- C5: if the active day set is the single day j, the code applies the
0.75 factor to day j exactly once. -/
theorem c5_single_active_day (dates : List String) (amounts : List ℤ)
    (b l d : List Bool) (j : ℕ) (h : days_with_dates dates = [j]) :
    (adjusted_per_diem_daily dates amounts b l d).getD j 0
      = round2 (dayPre amounts b l d j * (3/4)) := by
  have hmem : j ∈ days_with_dates dates := by rw [h]; exact List.mem_singleton_self j
  obtain ⟨hj, hActB⟩ := (mem_days_with_dates dates j).1 hmem
  rw [adjusted_getD dates amounts b l d j hj, adjustedDay, if_pos hActB,
    if_pos (Or.inl (by rw [first_day_idx, h]; rfl))]

/-- C5 witness: a one-day trip at tier 92 yields round(92 * 0.75, 2) = 69,
the factor applied once. -/
theorem c5_witness :
    days_with_dates ["a"] = [0]
      ∧ (adjusted_per_diem_daily ["a"] [(92 : ℤ)] [] [] []).getD 0 0 = 69 := by
  have hset : days_with_dates ["a"] = [0] := by with_unfolding_all decide
  have h := c5_single_active_day ["a"] [(92 : ℤ)] [] [] [] 0 hset
  refine ⟨hset, ?_⟩
  rw [h]
  with_unfolding_all decide

/-- Spec-side per-meal deduction constants, one table per meal. -/
def specBreakfastDed (t : ℤ) : ℚ :=
  if t = 68 then 16 else if t = 74 then 18 else if t = 80 then 20
  else if t = 86 then 22 else if t = 92 then 23 else 0

/-- Spec-side lunch deduction constants. -/
def specLunchDed (t : ℤ) : ℚ :=
  if t = 68 then 19 else if t = 74 then 20 else if t = 80 then 22
  else if t = 86 then 23 else if t = 92 then 26 else 0

/-- Spec-side dinner deduction constants. -/
def specDinnerDed (t : ℤ) : ℚ :=
  if t = 68 then 28 else if t = 74 then 31 else if t = 80 then 33
  else if t = 86 then 36 else if t = 92 then 38 else 0

/-- C6: for each valid tier and any combination of the three meal flags,
the day's deduction is the sum of that tier's per-meal constants over the
flagged meals only (no incidental term), and the deduction computed in the
day loop depends only on the day's tier and flags, not on its position. -/
theorem c6_deduction_structure (t : ℤ)
    (ht : t ∈ ([68, 74, 80, 86, 92] : List ℤ)) (b l d : Bool) :
    dayDeduction (deductsFor t) b l d
        = (if b then specBreakfastDed t else 0)
          + (if l then specLunchDed t else 0)
          + (if d then specDinnerDed t else 0)
      ∧ (∀ (amounts amounts2 : List ℤ) (bs ls ds bs2 ls2 ds2 : List Bool)
          (i j : ℕ),
          basePerDiem amounts i = basePerDiem amounts2 j →
          getCheck bs i = getCheck bs2 j →
          getCheck ls i = getCheck ls2 j →
          getCheck ds i = getCheck ds2 j →
          dayDeductionAt amounts bs ls ds i
            = dayDeductionAt amounts2 bs2 ls2 ds2 j) := by
  constructor
  · simp only [List.mem_cons, List.not_mem_nil, or_false] at ht
    rcases ht with rfl | rfl | rfl | rfl | rfl <;>
      cases b <;> cases l <;> cases d <;> with_unfolding_all decide
  · intro amounts amounts2 bs ls ds bs2 ls2 ds2 i j h1 h2 h3 h4
    rw [dayDeductionAt, dayDeductionAt, h1, h2, h3, h4]

/-- C6 witness: tier 80 with breakfast and lunch flagged gives a deduction
of 20 + 22 = 42, the spec's worked example. -/
theorem c6_witness : dayDeduction (deductsFor 80) true true false = 42 := by
  have h := (c6_deduction_structure 80 (by decide) true true false).1
  rw [h]
  with_unfolding_all decide

theorem exceptBind_ok {α β : Type} (a : α) (f : α → Except String β) :
    (Except.ok a : Except String α).bind f = f a := rfl

theorem listGetE_ok {α : Type} (l : List α) (i : ℕ) (dflt : α)
    (h : i < l.length) : listGetE l i = Except.ok (l.getD i dflt) := by
  have hg : l.get? i = some (l.getD i dflt) := by
    cases hq : l.get? i with
    | none => exact absurd h (not_lt.2 (List.get?_eq_none.1 hq))
    | some a =>
      rw [List.getD_eq_getElem?_getD, ← List.get?_eq_getElem?, hq]
      rfl
  unfold listGetE
  rw [hg]

theorem checkedBase_ok (amounts : List ℤ) (i : ℕ) :
    (if i < amounts.length then
        (listGetE amounts i).map (fun a => if a ≠ 0 then a else 80)
      else Except.ok 80) = Except.ok (basePerDiem amounts i) := by
  by_cases h : i < amounts.length
  · rw [if_pos h, listGetE_ok amounts i 0 h]
    have hg : amounts.get? i = some (amounts.getD i 0) := by
      cases hq : amounts.get? i with
      | none => exact absurd h (not_lt.2 (List.get?_eq_none.1 hq))
      | some a =>
        rw [List.getD_eq_getElem?_getD, ← List.get?_eq_getElem?, hq]
        rfl
    unfold basePerDiem
    rw [hg]
    rfl
  · rw [if_neg h]
    have hg : amounts.get? i = none := List.get?_eq_none.2 (by omega)
    unfold basePerDiem
    rw [hg]

theorem checkedCheck_ok (cl : List Bool) (i : ℕ) :
    (if i < cl.length then listGetE cl i else Except.ok false)
      = Except.ok (getCheck cl i) := by
  by_cases h : i < cl.length
  · rw [if_pos h, listGetE_ok cl i false h]
    rfl
  · rw [if_neg h, getCheck, List.getD_eq_default _ _ (by omega)]

theorem checkedAdjustedDay_ok (dates : List String) (amounts : List ℤ)
    (b l d : List Bool) (i : ℕ) (hi : i < dates.length) :
    checkedAdjustedDay dates amounts b l d i
      = Except.ok (adjustedDay dates amounts b l d i) := by
  rw [checkedAdjustedDay, if_pos hi, listGetE_ok dates i "" hi, exceptBind_ok,
    adjustedDay]
  by_cases hact : isActiveDate (dates.getD i "")
  · rw [if_pos hact, if_pos hact, checkedBase_ok, exceptBind_ok,
      checkedCheck_ok b i, exceptBind_ok, checkedCheck_ok l i, exceptBind_ok,
      checkedCheck_ok d i, exceptBind_ok]
    by_cases hfl : i = first_day_idx dates ∨ i = last_day_idx dates
    · rw [if_pos hfl, if_pos hfl]
      rfl
    · rw [if_neg hfl, if_neg hfl]
      rfl
  · rw [if_neg hact, if_neg hact]

/-- C3: the per-diem calculation is total.  With every list access
modelled as a raising operation, the loop's bounds guards ensure the
computation returns normally on every combination of per-day date, tier
and meal-flag inputs, of any lengths, producing exactly the values of the
pure calculation (missing data falls back to tier 80 and unflagged
meals). -/
theorem c3_calculator_total (dates : List String) (amounts : List ℤ)
    (b l d : List Bool) :
    checked_adjusted_per_diem dates amounts b l d
      = Except.ok (adjusted_per_diem_daily dates amounts b l d) := by
  rw [checked_adjusted_per_diem, adjusted_per_diem_daily]
  exact mapM_ok_of_forall _ _ _
    (fun i hi => checkedAdjustedDay_ok dates amounts b l d i (List.mem_range.1 hi))

/-- C10 counterexample: with min_value 5 and empty text, the function
returns 0.0, which is below min_value — the early-return for empty text
ignores min_value, so the result is not always at least min_value. -/
theorem c10_counterexample :
    number_text_input "" 5 = PVal.fin 0 ∧ ¬((5 : ℚ) ≤ 0) := by
  constructor
  · with_unfolding_all decide
  · norm_num

/-- C10 amended: full characterization of number_text_input.  Empty or
whitespace-only text and unparseable text yield 0.0 regardless of
min_value; text whose cleaned form parses to a finite value x yields
max(min_value, x) (clamping from below); a NaN parse is returned as NaN
(it compares false against min_value); +inf passes through and -inf is
clamped to min_value.  In particular, with the default min_value of 0 the
result is at least min_value whenever the text is parseable and not NaN. -/
theorem c10_number_input_characterization (text : String) (minv : ℚ) :
    (text.trim = "" → number_text_input text minv = PVal.fin 0)
      ∧ (text.trim ≠ "" → pyFloatOfString (cleanText text) = none →
          number_text_input text minv = PVal.fin 0)
      ∧ (∀ x : ℚ, text.trim ≠ "" →
          pyFloatOfString (cleanText text) = some (PVal.fin x) →
          number_text_input text minv = PVal.fin (max minv x))
      ∧ (text.trim ≠ "" → pyFloatOfString (cleanText text) = some PVal.nan →
          number_text_input text minv = PVal.nan)
      ∧ (text.trim ≠ "" → pyFloatOfString (cleanText text) = some PVal.inf →
          number_text_input text minv = PVal.inf)
      ∧ (text.trim ≠ "" → pyFloatOfString (cleanText text) = some PVal.ninf →
          number_text_input text minv = PVal.fin minv) := by
  refine ⟨fun ht => ?_, fun ht hp => ?_, fun x ht hp => ?_, fun ht hp => ?_,
    fun ht hp => ?_, fun ht hp => ?_⟩
  · rw [number_text_input, if_pos ht]
  · rw [number_text_input, if_neg ht, hp]
  · rw [number_text_input, if_neg ht, hp]
    show (if pvLt (PVal.fin x) minv = true then PVal.fin minv else PVal.fin x)
      = PVal.fin (max minv x)
    rcases lt_or_le x minv with hlt | hle
    · rw [if_pos (show pvLt (PVal.fin x) minv = true from decide_eq_true hlt),
        max_eq_left (le_of_lt hlt)]
    · rw [if_neg (show ¬pvLt (PVal.fin x) minv = true from by
        rw [show pvLt (PVal.fin x) minv = false from
          decide_eq_false (not_lt.2 hle)]
        exact Bool.false_ne_true), max_eq_right hle]
  · rw [number_text_input, if_neg ht, hp]
    rfl
  · rw [number_text_input, if_neg ht, hp]
    rfl
  · rw [number_text_input, if_neg ht, hp]
    rfl

/-- C10 amended, witness: a dollar-formatted input parses after cleaning
and is returned unclamped since it exceeds the default minimum 0. -/
theorem c10_witness :
    pyFloatOfString (cleanText "$3.50") = some (PVal.fin (7/2))
      ∧ number_text_input "$3.50" 0 = PVal.fin (max 0 (7/2)) := by
  have hp : pyFloatOfString (cleanText "$3.50")
      = some (PVal.fin (7/2)) := by
    with_unfolding_all decide
  exact ⟨hp, (c10_number_input_characterization "$3.50" 0).2.2.1
    (7/2) (by with_unfolding_all decide) hp⟩

end TravelForm
